import Mathlib

/-!
Verification development for the driver-notification bot
(`app/services/checks.py`, `app/services/compliance.py`,
`app/services/streaks.py`, `app/services/autosend.py`).

Modelling conventions:
* timestamps (`datetime` columns) are `Option Int` (minutes; `None` = SQL NULL),
* calendar days (`date` columns) are `Int` day numbers,
* `timedelta(hours=24)` is `1440` minutes, the follow-up delays are `15` and `50`,
* counters (`media_count`, streaks, `consecutive_reports`) are `Nat`
  (schema defaults `0`; the code only increments or zeroes them),
* SQL rows become structures, tables become lists of rows, and the
  scheduler job store / `_followup_jobs` dict become a job list plus a
  `Nat -> Option (List JobKey)` map.
-/

namespace PtiBot

/-- The checkin `status` column (`'pending' | 'submitted' | 'pass' | 'fail'
| 'needs_fix' | 'excused'`). -/
inductive Status where
  | pending
  | submitted
  | pass
  | fail
  | needs_fix
  | excused
deriving DecidableEq, Repr

/-- A `daily_checkins` row, mirroring the `Checkin` dataclass in
`app/services/checks.py`. -/
structure Checkin where
  id : Nat
  driver_id : Nat
  group_id : Nat
  date : Int
  sent_at : Option Int
  responded_at : Option Int
  status : Status
  reason : Option String
  reviewer_user_id : Option Int
  reviewed_at : Option Int
  review_message_id : Option Int
  media_count : Nat
  updated_at : Int
deriving DecidableEq, Repr

/-- `Checkin.is_terminal` from `app/services/checks.py`:
status in {pass, fail, needs_fix, excused}. -/
def Checkin.is_terminal (c : Checkin) : Bool :=
  c.status = Status.pass ∨ c.status = Status.fail ∨
    c.status = Status.needs_fix ∨ c.status = Status.excused

/-- A `drivers` row (the fields the verified code paths touch), mirroring
the `Driver` dataclass plus the `last_check_date` column used by
`streaks.update_after_pass`. -/
structure Driver where
  id : Nat
  active : Bool
  streak_current : Nat
  streak_best : Nat
  notify_chat_id : Option Int
  last_pass_at : Option Int
  last_check_date : Option Int
deriving DecidableEq, Repr

/-! ## Streak engine (`app/services/streaks.py`) -/

/-- `streaks.update_after_pass`: the SQL update
`streak_current = streak_current + 1,
streak_best = GREATEST(streak_best, streak_current + 1),
last_check_date = $2` (the right-hand sides read the pre-update row). -/
def update_after_pass (d : Driver) (check_date : Int) : Driver :=
  { d with
    streak_current := d.streak_current + 1
    streak_best := max d.streak_best (d.streak_current + 1)
    last_check_date := some check_date }

/-- Does a `daily_checkins` row exist for this driver, group and date
(the `EXISTS` subquery of `streaks.reset_missed_checks`)? Any status counts. -/
def hasCheckinRow (checkins : List Checkin) (driverId gid : Nat) (dt : Int) : Bool :=
  checkins.any (fun c => c.driver_id = driverId ∧ c.group_id = gid ∧ c.date = dt)

/-- The per-row effect of `streaks.reset_missed_checks`: zero
`streak_current` for an active driver with no checkin row for the target
group/date, leave every other driver row unchanged. -/
def reset_missed_step (checkins : List Checkin) (gid : Nat) (dt : Int) (d : Driver) : Driver :=
  if d.active ∧ ¬ hasCheckinRow checkins d.id gid dt then
    { d with streak_current := 0 }
  else d

/-- `streaks.reset_missed_checks` as a whole-table update. -/
def reset_missed_checks (drivers : List Driver) (checkins : List Checkin)
    (gid : Nat) (dt : Int) : List Driver :=
  drivers.map (reset_missed_step checkins gid dt)

/-! ## Checkin ledger (`app/services/checks.py`) -/

/-- The row update inside `checks.record_media` (applied to the ensured
row for the day), together with the `first_media` flag the function
returns, which is computed from the row **before** the increment. -/
def record_media (c : Checkin) (now : Int) : Checkin × Bool :=
  let first := c.media_count = 0
  let c' : Checkin :=
    { c with
      media_count := c.media_count + 1
      responded_at := some (c.responded_at.getD now)
      status :=
        if c.status = Status.pending ∨ c.status = Status.submitted then
          Status.submitted
        else c.status
      reason := none
      updated_at := now }
  (c', first)

/-- Database state shared by the ledger operations: the `daily_checkins`
and `drivers` tables plus the serial counter for fresh checkin ids. -/
structure DB where
  checkins : List Checkin
  drivers : List Driver
  nextCheckinId : Nat
deriving DecidableEq, Repr

/-- Table well-formedness guaranteed by the schema: checkin ids are unique
and `(driver_id, date)` is a unique key (the `ON CONFLICT (driver_id, date)`
constraint). -/
def DB.WF (db : DB) : Prop :=
  (db.checkins.map Checkin.id).Nodup ∧
  (db.checkins.map (fun c => (c.driver_id, c.date))).Nodup

/-- `checks.ensure_checkin`: `INSERT ... ON CONFLICT (driver_id, date) DO
UPDATE SET group_id = EXCLUDED.group_id, updated_at = now() RETURNING *`. -/
def ensure_checkin (db : DB) (driverId gid : Nat) (check_date : Int)
    (now : Int) : Checkin × DB :=
  match db.checkins.find? (fun c => c.driver_id = driverId ∧ c.date = check_date) with
  | some c =>
    let c' := { c with group_id := gid, updated_at := now }
    (c', { db with
      checkins := db.checkins.map (fun x => if x.id = c.id then c' else x) })
  | none =>
    let c : Checkin :=
      { id := db.nextCheckinId
        driver_id := driverId
        group_id := gid
        date := check_date
        sent_at := none
        responded_at := none
        status := Status.pending
        reason := none
        reviewer_user_id := none
        reviewed_at := none
        review_message_id := none
        media_count := 0
        updated_at := now }
    (c, { db with
      checkins := db.checkins ++ [c]
      nextCheckinId := db.nextCheckinId + 1 })

/-- `checks.reset_checkin`: look the row up by id (raising if absent,
modelled as `none`), clear media count, response/notification timestamps,
status, reason and reviewer fields, and clear the driver's `last_pass_at`.
(The `DELETE FROM media` statement touches only the media table, which no
verified property reads.) -/
def reset_checkin (db : DB) (cid : Nat) (now : Int) : Option (Checkin × DB) :=
  match db.checkins.find? (fun c => c.id = cid) with
  | none => none
  | some c =>
    let c' : Checkin :=
      { c with
        media_count := 0
        responded_at := none
        status := Status.pending
        reason := none
        reviewer_user_id := none
        reviewed_at := none
        sent_at := none
        review_message_id := none
        updated_at := now }
    some (c', { db with
      checkins := db.checkins.map (fun x => if x.id = c.id then c' else x)
      drivers := db.drivers.map (fun d =>
        if d.id = c.driver_id then { d with last_pass_at := none } else d) })

/-- `checks.reopen_checkin`: update the row keyed by (driver, group, date)
to `submitted`, clearing reason, reviewer and review time; when a row was
updated, also clear the driver's `last_pass_at`. -/
def reopen_checkin (db : DB) (driverId gid : Nat) (check_date : Int)
    (now : Int) : Option (Checkin × DB) :=
  match db.checkins.find? (fun c =>
      c.driver_id = driverId ∧ c.group_id = gid ∧ c.date = check_date) with
  | none => none
  | some c =>
    let c' : Checkin :=
      { c with
        status := Status.submitted
        reason := none
        reviewer_user_id := none
        reviewed_at := none
        updated_at := now }
    some (c', { db with
      checkins := db.checkins.map (fun x => if x.id = c.id then c' else x)
      drivers := db.drivers.map (fun d =>
        if d.id = c.driver_id then { d with last_pass_at := none } else d) })

/-! ## Compliance tracker (`app/services/compliance.py`) -/

/-- `REPORT_WINDOW = timedelta(hours=24)`, in minutes. -/
def REPORT_WINDOW : Int := 1440

/-- Classification values produced by `_evaluate_driver`. -/
inductive CStatus where
  | compliant
  | non_compliant
  | exception
deriving DecidableEq, Repr

/-- Does `needle` occur as a contiguous substring of `hay` (Python `in`),
on character lists? -/
def charsStartWith : List Char → List Char → Bool
  | [], _ => true
  | _ :: _, [] => false
  | a :: as, b :: bs => a = b && charsStartWith as bs

/-- Substring occurrence anywhere in the haystack. -/
def charsContain (needle : List Char) : List Char → Bool
  | [] => needle.isEmpty
  | c :: cs => charsStartWith needle (c :: cs) || charsContain needle cs

/-- Python `str.lower()`, on the character list of a string. -/
def lowerChars (s : String) : List Char :=
  s.toList.map Char.toLower

/-- Python `needle in hay` where `hay` is an already-lowered character
list. -/
def strContains (hay : List Char) (needle : String) : Bool :=
  charsContain needle.toList hay

/-- `EXCEPTION_KEYWORDS` from `app/services/compliance.py`. -/
def EXCEPTION_KEYWORDS : List String :=
  ["trailer not ready", "dropped", "drop yard", "at shop", "shop",
   "in shop", "no trailer", "waiting on trailer"]

/-- `PAUSE_TOKENS` from `app/services/compliance.py`. -/
def PAUSE_TOKENS : List String := ["inactive", "home", "home time"]

/-- The keyword test in `_evaluate_driver`:
`reason_text = (checkin.reason or "").lower()` followed by
`reason_text and any(keyword in reason_text for keyword in EXCEPTION_KEYWORDS)`. -/
def matchesExceptionKeyword (reason : Option String) : Bool :=
  let rt := lowerChars (reason.getD "")
  ¬ rt = [] && EXCEPTION_KEYWORDS.any (fun kw => strContains rt kw)

/-- `_is_paused_chat`: any pause token occurs in the lowered chat title. -/
def isPausedChat (title : String) : Bool :=
  PAUSE_TOKENS.any (fun tok => strContains (lowerChars title) tok)

/-- Python `ts and now - ts <= REPORT_WINDOW` for a nullable timestamp
(datetimes are always truthy, so truthiness is `isSome`). -/
def withinWindow (ts : Option Int) (now : Int) : Bool :=
  match ts with
  | some t => now - t ≤ REPORT_WINDOW
  | none => false

/-- Day number of a timestamp (`now.date()`), for the returned target date. -/
def dateOf (now : Int) : Int := now / 1440

/-- `_evaluate_driver` from `app/services/compliance.py`: classify one
driver from their latest checkin at time `now`, returning
(classification, reason, target date). -/
def evaluate_driver (driver : Driver) (checkin : Option Checkin) (now : Int) :
    CStatus × Option String × Int :=
  match checkin with
  | some c =>
    if matchesExceptionKeyword c.reason then
      (CStatus.exception, c.reason, c.date)
    else if c.status = Status.pass ∧ withinWindow c.reviewed_at now then
      (CStatus.compliant, none, c.date)
    else if c.status = Status.excused then
      (CStatus.exception, c.reason, c.date)
    else if c.status = Status.needs_fix then
      (CStatus.exception, some "Needs fix", c.date)
    else if c.status = Status.fail then
      (CStatus.non_compliant, c.reason, c.date)
    else if (c.status = Status.pending ∨ c.status = Status.submitted) ∧
        withinWindow driver.last_pass_at now then
      (CStatus.compliant, none, c.date)
    else
      (CStatus.non_compliant, c.reason, c.date)
  | none =>
    if withinWindow driver.last_pass_at now then
      (CStatus.compliant, none, dateOf now)
    else
      (CStatus.non_compliant, none, dateOf now)

/-- The pause reclassification step of `send_hourly_report`: a
`non_compliant` entry whose resolved chat title matches a pause token is
downgraded to `exception` with reason "Chat inactive". `chatTitle = none`
models a driver without a resolvable chat. -/
def pauseReclassify (st : CStatus) (reason : Option String)
    (chatTitle : Option String) : CStatus × Option String :=
  match chatTitle with
  | some title =>
    if st = CStatus.non_compliant ∧ isPausedChat title then
      (CStatus.exception, some "Chat inactive")
    else (st, reason)
  | none => (st, reason)

/-- A `compliance_tracking` row (the fields the verified code paths touch),
mirroring the `ComplianceState` dataclass. -/
structure TrackState where
  consecutive_reports : Nat
  last_report_at : Option Int
  last_driver_alert_at : Option Int
  last_dispatch_alert_at : Option Int
  last_status : Option CStatus
deriving DecidableEq, Repr

/-- `_upsert_state`: insert-or-update the tracking row.  On insert the
counter is 1 for `non_compliant` and 0 otherwise; on update it is
incremented when both the new and the stored classification are
`non_compliant`, restarted at 1 on a fresh `non_compliant`, and zeroed
otherwise. -/
def upsert_state (prev : Option TrackState) (st : CStatus) (now : Int) : TrackState :=
  match prev with
  | none =>
    { consecutive_reports := if st = CStatus.non_compliant then 1 else 0
      last_report_at := some now
      last_driver_alert_at := none
      last_dispatch_alert_at := none
      last_status := some st }
  | some p =>
    { p with
      consecutive_reports :=
        if st = CStatus.non_compliant ∧ p.last_status = some CStatus.non_compliant then
          p.consecutive_reports + 1
        else if st = CStatus.non_compliant then 1
        else 0
      last_report_at := some now
      last_status := some st }

/-- `_reset_state`: zero the counter and stamp the status/report time. -/
def reset_state (p : TrackState) (now : Int) (st : CStatus) : TrackState :=
  { p with
    consecutive_reports := 0
    last_status := some st
    last_report_at := some now }

/-- `_should_alert_driver`. -/
def should_alert_driver (s : TrackState) (now : Int) : Bool :=
  if s.consecutive_reports < 2 then false
  else
    match s.last_driver_alert_at with
    | some t => if now - t < REPORT_WINDOW then false else true
    | none => true

/-- `_should_alert_dispatch`. -/
def should_alert_dispatch (s : TrackState) (now : Int) : Bool :=
  if s.consecutive_reports < 3 then false
  else
    match s.last_dispatch_alert_at with
    | some t => if now - t < REPORT_WINDOW then false else true
    | none => true

/-- Outcome of one tracker update for one driver inside
`send_hourly_report`. -/
structure TickResult where
  state : TrackState
  firedDriver : Bool
  firedDispatch : Bool
deriving DecidableEq, Repr

/-- The per-driver body of the tracking loop in `send_hourly_report`:
upsert the state with the tick's classification; for a `non_compliant`
entry fire the driver nudge when the driver has a linked chat and
`_should_alert_driver` holds (stamping `last_driver_alert_at`), and the
dispatch escalation when `_should_alert_dispatch` holds (stamping
`last_dispatch_alert_at`); otherwise reset a non-zero counter. -/
def compliance_tick (prev : Option TrackState) (st : CStatus) (hasChat : Bool)
    (now : Int) : TickResult :=
  let s := upsert_state prev st now
  if st = CStatus.non_compliant then
    let fd := hasChat && should_alert_driver s now
    let fe := should_alert_dispatch s now
    let s1 := if fd then { s with last_driver_alert_at := some now } else s
    let s2 := if fe then { s1 with last_dispatch_alert_at := some now } else s1
    { state := s2, firedDriver := fd, firedDispatch := fe }
  else
    let s2 := if s.consecutive_reports ≠ 0 then reset_state s now st else s
    { state := s2, firedDriver := false, firedDispatch := false }

/-- Run a sequence of compliance ticks `(classification, time)` for one
driver, recording for each tick whether the driver nudge and the dispatch
escalation fired, together with the tick time. -/
def run_ticks (hasChat : Bool) : Option TrackState → List (CStatus × Int) →
    List (Bool × Bool × Int)
  | _, [] => []
  | prev, (st, t) :: rest =>
    let r := compliance_tick prev st hasChat t
    (r.firedDriver, r.firedDispatch, t) :: run_ticks hasChat (some r.state) rest

/-! ## Follow-up scheduler (`app/services/autosend.py`)

The job id string `f"followup:{checkin_id}:{idx}"` is modelled by the pair
`(checkin_id, idx)`; the APScheduler job store becomes a list of jobs and
the `_followup_jobs` dict becomes a map `Nat → Option (List JobKey)`.
-/

/-- A follow-up job id: (checkin id, slot). -/
abbrev JobKey := Nat × Nat

/-- A date-triggered job in the scheduler store. -/
structure FJob where
  key : JobKey
  runAt : Int
deriving DecidableEq, Repr

/-- Scheduler state: the job store plus the `_followup_jobs` index. -/
structure Sched where
  jobs : List FJob
  index : Nat → Option (List JobKey)

/-- Fresh `SchedulerService` state: no jobs, empty index. -/
def schedInit : Sched := { jobs := [], index := fun _ => none }

/-- `scheduler.add_job(..., id=job_id, replace_existing=True)` with a date
trigger: any job with the same id is replaced. -/
def addJob (s : Sched) (k : JobKey) (t : Int) : Sched :=
  { s with jobs := s.jobs.filter (fun j => decide (¬ j.key = k)) ++ [⟨k, t⟩] }

/-- `SchedulerService.cancel_followups`: pop the index entry for the
checkin and remove each listed job from the scheduler.  With no entry the
popped list is empty and nothing is removed. -/
def cancel_followups (s : Sched) (cid : Nat) : Sched :=
  let ids := (s.index cid).getD []
  { jobs := s.jobs.filter (fun j => decide (¬ j.key ∈ ids))
    index := fun c => if c = cid then none else s.index c }

/-- `SchedulerService.schedule_followups`: cancel any existing follow-ups
for the checkin, then arm one job per `FOLLOWUP_DELAYS` entry (15 and 50
minutes from now, slots 1 and 2) and store the id list in the index. -/
def schedule_followups (s : Sched) (cid : Nat) (now : Int) : Sched :=
  let s1 := cancel_followups s cid
  let s2 := addJob s1 (cid, 1) (now + 15)
  let s3 := addJob s2 (cid, 2) (now + 50)
  { s3 with index := fun c => if c = cid then some [(cid, 1), (cid, 2)] else s3.index c }

/-- The follow-up jobs outstanding in the scheduler for one checkin. -/
def jobsFor (s : Sched) (cid : Nat) : List FJob :=
  s.jobs.filter (fun j => decide (j.key.1 = cid))

/-- Number of outstanding follow-up jobs for one checkin. -/
def outstanding (s : Sched) (cid : Nat) : Nat := (jobsFor s cid).length

/-- The index bookkeeping at the top of `_run_followup_job`: drop the
fired slot's id from the checkin's index entry, popping the entry once it
is empty. -/
def dropSelfFromIndex (s : Sched) (cid : Nat) (k : JobKey) : Sched :=
  match s.index cid with
  | none => s
  | some ids =>
    if k ∈ ids then
      let remaining := ids.erase k
      if remaining.isEmpty then
        { s with index := fun c => if c = cid then none else s.index c }
      else
        { s with index := fun c => if c = cid then some remaining else s.index c }
    else s

/-- `SchedulerService._run_followup_job` for slot `slot` of checkin `cid`,
fired by the scheduler (so the fired date job is no longer in the store).
`checkin` is the re-fetched row, `driverFound`/`groupFound` model the
driver and group lookups, `targetNeg` models `target_chat_id < 0`, and
`chatBlocked` models a paused chat title or a failed chat inspection.
Returns the new scheduler state and whether the reminder was re-sent. -/
def run_followup_job (s : Sched) (cid slot : Nat) (checkin : Option Checkin)
    (driverFound groupFound targetNeg chatBlocked : Bool) : Sched × Bool :=
  let s0 : Sched := { s with jobs := s.jobs.filter (fun j => decide (¬ j.key = (cid, slot))) }
  let s1 := dropSelfFromIndex s0 cid (cid, slot)
  match checkin with
  | none => (cancel_followups s1 cid, false)
  | some c =>
    if ¬ (c.status = Status.pending ∨ c.status = Status.submitted) ∨
        c.responded_at.isSome then
      (cancel_followups s1 cid, false)
    else if ¬ driverFound ∨ ¬ groupFound then
      (cancel_followups s1 cid, false)
    else if targetNeg ∧ chatBlocked then
      (cancel_followups s1 cid, false)
    else
      (s1, true)

/-- A call into the scheduler service's public follow-up API. -/
inductive SOp where
  | sched (cid : Nat) (now : Int)
  | cancel (cid : Nat)

/-- Apply one API call. -/
def applySOp (s : Sched) : SOp → Sched
  | SOp.sched cid now => schedule_followups s cid now
  | SOp.cancel cid => cancel_followups s cid

/-- Run a sequence of `schedule_followups` / `cancel_followups` calls. -/
def runSOps (s : Sched) : List SOp → Sched
  | [] => s
  | op :: rest => runSOps (applySOp s op) rest

/-! ## Theorems -/

/-- Claim C2: each compliance evaluation updates `consecutive_reports` via
`_upsert_state`: incremented by 1 exactly when the new classification is
`non_compliant` and the stored one also was; set to 1 on a fresh
`non_compliant` streak start (stored classification not `non_compliant`,
including a missing row); and set to 0 on any non-`non_compliant`
classification. -/
theorem upsert_state_consecutive_spec (prev : Option TrackState) (st : CStatus) (now : Int) :
    (∀ p, prev = some p →
      ((st = CStatus.non_compliant ∧ p.last_status = some CStatus.non_compliant) →
        (upsert_state prev st now).consecutive_reports = p.consecutive_reports + 1) ∧
      ((st = CStatus.non_compliant ∧ p.last_status ≠ some CStatus.non_compliant) →
        (upsert_state prev st now).consecutive_reports = 1)) ∧
    (prev = none → st = CStatus.non_compliant →
      (upsert_state prev st now).consecutive_reports = 1) ∧
    (st ≠ CStatus.non_compliant → (upsert_state prev st now).consecutive_reports = 0) := by
  rcases prev with _ | p
  · refine ⟨by simp, fun _ hst => by simp [upsert_state, hst], fun hst => ?_⟩
    simp [upsert_state, hst]
  · refine ⟨fun q hq => ?_, by simp, fun hst => ?_⟩
    · obtain rfl : p = q := by simpa using hq
      constructor
      · rintro ⟨hst, hlast⟩
        simp [upsert_state, hst, hlast]
      · rintro ⟨hst, hlast⟩
        simp [upsert_state, hst, hlast]
    · simp [upsert_state, hst]

/-- Witness for C2: a second consecutive `non_compliant` evaluation
increments the counter from 1 to 2. -/
theorem upsert_state_consecutive_witness :
    (upsert_state (some ⟨1, some 0, none, none, some CStatus.non_compliant⟩)
      CStatus.non_compliant 120).consecutive_reports = 1 + 1 :=
  ((upsert_state_consecutive_spec
    (some ⟨1, some 0, none, none, some CStatus.non_compliant⟩)
    CStatus.non_compliant 120).1 _ rfl).1 ⟨rfl, rfl⟩

/-- Claim C4: `record_media` increments `media_count` by exactly 1, sets
the first-response time only if unset, advances the status to `submitted`
only from `pending`/`submitted` (a terminal status is kept while the
count still grows), clears the stored reason, and returns `true` exactly
when `media_count` was 0 before the call. -/
theorem record_media_spec (c : Checkin) (now : Int) :
    (record_media c now).1.media_count = c.media_count + 1 ∧
    (c.responded_at = none → (record_media c now).1.responded_at = some now) ∧
    (∀ t, c.responded_at = some t → (record_media c now).1.responded_at = some t) ∧
    ((c.status = Status.pending ∨ c.status = Status.submitted) →
      (record_media c now).1.status = Status.submitted) ∧
    (c.is_terminal = true → (record_media c now).1.status = c.status) ∧
    (record_media c now).1.reason = none ∧
    ((record_media c now).2 = true ↔ c.media_count = 0) := by
  refine ⟨rfl, fun h => by simp [record_media, h], fun t h => by simp [record_media, h],
    fun h => by simp [record_media, h], fun h => ?_, rfl, by simp [record_media]⟩
  rcases c with ⟨_, _, _, _, _, _, st, _, _, _, _, _, _⟩
  cases st <;> simp_all [record_media, Checkin.is_terminal]

/-- Witness for C4: first photo on a fresh pending checkin. -/
theorem record_media_witness :
    (record_media ⟨3, 1, 1, 0, some 10, none, Status.pending, some "offthread_warning",
        none, none, none, 0, 10⟩ 25).1.status = Status.submitted ∧
    (record_media ⟨3, 1, 1, 0, some 10, none, Status.pending, some "offthread_warning",
        none, none, none, 0, 10⟩ 25).2 = true := by
  have h := record_media_spec ⟨3, 1, 1, 0, some 10, none, Status.pending,
    some "offthread_warning", none, none, none, 0, 10⟩ 25
  exact ⟨h.2.2.2.1 (Or.inl rfl), h.2.2.2.2.2.2.mpr rfl⟩

/-- Claim C6: on a pass event the streak engine increments the current
streak and raises the best streak to its maximum with the new current (so
the best streak never decreases); on the nightly rollover an active
driver's current streak is zeroed when no checkin row at all exists for
the group and prior day, while any recorded row — a `fail`, `needs_fix`
or `excused` day included — leaves the driver row untouched; the rollover
never changes the best streak. -/
theorem streak_engine_spec (d : Driver) (cd : Int) (drivers : List Driver)
    (checkins : List Checkin) (gid : Nat) (dt : Int) :
    (update_after_pass d cd).streak_current = d.streak_current + 1 ∧
    (update_after_pass d cd).streak_best = max d.streak_best (d.streak_current + 1) ∧
    d.streak_best ≤ (update_after_pass d cd).streak_best ∧
    reset_missed_checks drivers checkins gid dt
      = drivers.map (reset_missed_step checkins gid dt) ∧
    (reset_missed_step checkins gid dt d).streak_best = d.streak_best ∧
    (d.active = true → hasCheckinRow checkins d.id gid dt = false →
      reset_missed_step checkins gid dt d = { d with streak_current := 0 }) ∧
    (∀ c ∈ checkins, c.driver_id = d.id → c.group_id = gid → c.date = dt →
      reset_missed_step checkins gid dt d = d) := by
  refine ⟨rfl, rfl, le_max_left _ _, rfl, ?_, fun ha hrow => ?_, fun c hc h1 h2 h3 => ?_⟩
  · unfold reset_missed_step
    split <;> rfl
  · simp [reset_missed_step, ha, hrow]
  · have hrow : hasCheckinRow checkins d.id gid dt = true := by
      unfold hasCheckinRow
      rw [List.any_eq_true]
      exact ⟨c, hc, by simp [h1, h2, h3]⟩
    simp [reset_missed_step, hrow]

/-- Witness for C6: an active driver with a recorded `fail` row for the
day keeps the streak; one with no row is zeroed. -/
theorem streak_engine_witness :
    reset_missed_step
        [⟨1, 5, 2, 0, none, none, Status.fail, none, some 9, some 3, none, 1, 3⟩] 2 0
        ⟨5, true, 4, 6, none, none, none⟩
      = ⟨5, true, 4, 6, none, none, none⟩ ∧
    reset_missed_step [] 2 0 ⟨5, true, 4, 6, none, none, none⟩
      = ⟨5, true, 0, 6, none, none, none⟩ := by
  constructor
  · exact (streak_engine_spec ⟨5, true, 4, 6, none, none, none⟩ 0 []
      [⟨1, 5, 2, 0, none, none, Status.fail, none, some 9, some 3, none, 1, 3⟩] 2 0).2.2.2.2.2.2
      ⟨1, 5, 2, 0, none, none, Status.fail, none, some 9, some 3, none, 1, 3⟩
      (by simp) rfl rfl rfl
  · exact (streak_engine_spec ⟨5, true, 4, 6, none, none, none⟩ 0 [] [] 2 0).2.2.2.2.2.1
      rfl (by decide)

/-- Claim C10 (implicit): starting from `streak_best ≥ streak_current`,
both streak operations preserve `streak_best ≥ streak_current`:
`update_after_pass` raises the best streak to `max best (current + 1)` in
the same update that increments the current streak, and the rollover step
only lowers the current streak to 0, leaving the best streak unchanged. -/
theorem streak_best_ge_current_invariant (d : Driver) (cd : Int)
    (checkins : List Checkin) (gid : Nat) (dt : Int)
    (h : d.streak_current ≤ d.streak_best) :
    (update_after_pass d cd).streak_current ≤ (update_after_pass d cd).streak_best ∧
    (update_after_pass d cd).streak_best = max d.streak_best (d.streak_current + 1) ∧
    (reset_missed_step checkins gid dt d).streak_current ≤ d.streak_current ∧
    (reset_missed_step checkins gid dt d).streak_best = d.streak_best ∧
    (reset_missed_step checkins gid dt d).streak_current
      ≤ (reset_missed_step checkins gid dt d).streak_best := by
  have hb : (reset_missed_step checkins gid dt d).streak_best = d.streak_best := by
    unfold reset_missed_step
    split <;> rfl
  have hc : (reset_missed_step checkins gid dt d).streak_current ≤ d.streak_current := by
    unfold reset_missed_step
    split <;> simp
  refine ⟨le_max_right _ _, rfl, hc, hb, ?_⟩
  rw [hb]
  exact le_trans hc h

/-- Witness for C10: the invariant holds through a pass update and a
rollover step for a concrete driver. -/
theorem streak_best_ge_current_witness :
    (update_after_pass ⟨5, true, 4, 6, none, none, none⟩ 0).streak_current
      ≤ (update_after_pass ⟨5, true, 4, 6, none, none, none⟩ 0).streak_best ∧
    (reset_missed_step [] 2 0 ⟨5, true, 4, 6, none, none, none⟩).streak_current
      ≤ (reset_missed_step [] 2 0 ⟨5, true, 4, 6, none, none, none⟩).streak_best := by
  have h := streak_best_ge_current_invariant ⟨5, true, 4, 6, none, none, none⟩ 0 [] 2 0
    (by decide)
  exact ⟨h.1, h.2.2.2.2⟩

/-- The per-driver classification exactly as claim C5 words and orders it
(compliant first, then exception, then `non_compliant` otherwise), to be
compared with `evaluate_driver` from the source. -/
def claimC5Classification (driver : Driver) (c : Checkin) (now : Int) : CStatus :=
  if (c.status = Status.pass ∧ withinWindow c.reviewed_at now) ∨
      ((c.status = Status.pending ∨ c.status = Status.submitted) ∧
        withinWindow driver.last_pass_at now) then
    CStatus.compliant
  else if matchesExceptionKeyword c.reason ∨ c.status = Status.excused ∨
      c.status = Status.needs_fix then
    CStatus.exception
  else
    CStatus.non_compliant

/-- Counterexample to claim C5 as stated: for a checkin whose status is
`pass`, reviewed within the window, but whose stored reason contains the
keyword "shop", the claim classifies the driver `compliant` while
`_evaluate_driver` checks the keyword set first and returns `exception`. -/
theorem evaluate_driver_claim_counterexample :
    claimC5Classification ⟨1, true, 0, 0, none, none, none⟩
        ⟨1, 1, 1, 0, none, some 0, Status.pass, some "shop", some 9, some 0, none, 3, 0⟩ 10
      = CStatus.compliant ∧
    (evaluate_driver ⟨1, true, 0, 0, none, none, none⟩
        (some ⟨1, 1, 1, 0, none, some 0, Status.pass, some "shop", some 9, some 0, none, 3, 0⟩)
        10).1
      = CStatus.exception := by decide

/-- Claim C5 (amended: the keyword exception takes precedence over the
compliant classification): `_evaluate_driver` classifies a driver with a
latest checkin as `exception` exactly when the stored reason matches the
non-punitive keyword set or the status is `excused` or `needs_fix`;
`compliant` exactly when the reason does not match the keyword set and
either the checkin is a `pass` reviewed within the 24-hour window or the
checkin is still open (`pending`/`submitted`) and the driver has a
qualifying pass within the window; `non_compliant` otherwise (`fail`
included).  A driver with no checkin is `compliant` exactly on a
qualifying recent pass and `non_compliant` otherwise, and the hourly
report downgrades a `non_compliant` driver whose linked chat title is
pause-flagged to `exception`. -/
theorem evaluate_driver_amended (d : Driver) (c : Checkin) (now : Int) :
    ((evaluate_driver d (some c) now).1 = CStatus.exception ↔
      (matchesExceptionKeyword c.reason = true ∨ c.status = Status.excused ∨
        c.status = Status.needs_fix)) ∧
    ((evaluate_driver d (some c) now).1 = CStatus.compliant ↔
      (matchesExceptionKeyword c.reason = false ∧
        ((c.status = Status.pass ∧ withinWindow c.reviewed_at now = true) ∨
          ((c.status = Status.pending ∨ c.status = Status.submitted) ∧
            withinWindow d.last_pass_at now = true)))) ∧
    (matchesExceptionKeyword c.reason = false → c.status = Status.fail →
      (evaluate_driver d (some c) now).1 = CStatus.non_compliant) ∧
    ((evaluate_driver d none now).1 = CStatus.compliant ↔
      withinWindow d.last_pass_at now = true) ∧
    ((evaluate_driver d none now).1 = CStatus.non_compliant ↔
      withinWindow d.last_pass_at now = false) ∧
    (∀ st reason title, (pauseReclassify st reason (some title)).1 = CStatus.exception ↔
      (st = CStatus.exception ∨
        (st = CStatus.non_compliant ∧ isPausedChat title = true))) := by
  refine ⟨?_, ?_, ?_, ?_, ?_, ?_⟩
  · rcases c with ⟨_, _, _, _, _, _, st, rs, _, rv, _, _, _⟩
    cases st <;> cases hkw : matchesExceptionKeyword rs <;>
      cases hrev : withinWindow rv now <;>
      cases hlp : withinWindow d.last_pass_at now <;>
      simp [evaluate_driver, hkw, hrev, hlp]
  · rcases c with ⟨_, _, _, _, _, _, st, rs, _, rv, _, _, _⟩
    cases st <;> cases hkw : matchesExceptionKeyword rs <;>
      cases hrev : withinWindow rv now <;>
      cases hlp : withinWindow d.last_pass_at now <;>
      simp [evaluate_driver, hkw, hrev, hlp]
  · intro hkw hst
    rcases c with ⟨_, _, _, _, _, _, st, rs, _, rv, _, _, _⟩
    cases st <;> simp_all [evaluate_driver]
  · cases hlp : withinWindow d.last_pass_at now <;> simp [evaluate_driver, hlp]
  · cases hlp : withinWindow d.last_pass_at now <;> simp [evaluate_driver, hlp]
  · intro st reason title
    cases st <;> cases hp : isPausedChat title <;> simp [pauseReclassify, hp]

/-- Witness for the amended C5: a `fail` checkin with a non-keyword
reason is classified `non_compliant`. -/
theorem evaluate_driver_amended_witness :
    (evaluate_driver ⟨1, true, 0, 0, none, none, none⟩
        (some ⟨1, 1, 1, 0, none, some 0, Status.fail, some "Tires", some 9, some 0, none, 1, 0⟩)
        10).1
      = CStatus.non_compliant :=
  (evaluate_driver_amended ⟨1, true, 0, 0, none, none, none⟩
    ⟨1, 1, 1, 0, none, some 0, Status.fail, some "Tires", some 9, some 0, none, 1, 0⟩
    10).2.2.1 (by decide) rfl

/-- `find?` returns the unique element satisfying the predicate. -/
theorem find?_of_unique {α : Type _} (p : α → Bool) (l : List α) (x : α)
    (hx : x ∈ l) (hpx : p x = true)
    (huniq : ∀ y ∈ l, p y = true → y = x) : l.find? p = some x := by
  induction l with
  | nil => cases hx
  | cons a l ih =>
    rcases List.mem_cons.mp hx with rfl | hx'
    · exact List.find?_cons_of_pos l hpx
    · by_cases hpa : p a = true
      · have ha : a = x := huniq a (List.mem_cons_self a l) hpa
        subst ha
        exact List.find?_cons_of_pos l hpa
      · rw [List.find?_cons_of_neg l hpa]
        exact ih hx' (fun y hy hp => huniq y (List.mem_cons_of_mem a hy) hp)

/-- `ensure_checkin` on a table already holding the (unique) row for the
driver and day returns that row with a refreshed `updated_at` and the
same group, inserting nothing. -/
theorem ensure_checkin_found (db : DB) (x : Checkin) (now2 : Int)
    (hmem : x ∈ db.checkins)
    (huniq : ∀ y ∈ db.checkins, y.driver_id = x.driver_id → y.date = x.date → y = x) :
    (ensure_checkin db x.driver_id x.group_id x.date now2).1
      = { x with updated_at := now2 } ∧
    (ensure_checkin db x.driver_id x.group_id x.date now2).2.checkins.length
      = db.checkins.length := by
  have hfind2 : db.checkins.find?
      (fun c => decide (c.driver_id = x.driver_id ∧ c.date = x.date)) = some x := by
    apply find?_of_unique _ _ x hmem (by simp)
    intro y hy hpy
    simp only [decide_eq_true_eq] at hpy
    exact huniq y hy hpy.1 hpy.2
  unfold ensure_checkin
  rw [hfind2]
  constructor
  · rcases x with ⟨_, _, _, _, _, _, _, _, _, _, _, _, _⟩
    rfl
  · simp

/-- Claim C8: `reset_checkin` returns the checkin to `pending` with
`media_count` 0, clears reviewer, reason, response and notification
timestamps (and the review-card reference), clears the driver's
`last_pass_at`, and a subsequent `ensure_checkin` for the same driver and
day finds the existing row (same id, same group), changing only
`updated_at` and adding no duplicate row. -/
theorem reset_then_ensure_spec (db : DB) (cid : Nat) (now now2 : Int)
    (hwf : db.WF) (c' : Checkin) (db' : DB)
    (h : reset_checkin db cid now = some (c', db')) :
    c'.status = Status.pending ∧ c'.media_count = 0 ∧
    c'.reviewer_user_id = none ∧ c'.reason = none ∧
    c'.responded_at = none ∧ c'.sent_at = none ∧ c'.reviewed_at = none ∧
    c'.review_message_id = none ∧ c'.id = cid ∧
    (∀ d ∈ db'.drivers, d.id = c'.driver_id → d.last_pass_at = none) ∧
    (ensure_checkin db' c'.driver_id c'.group_id c'.date now2).1
      = { c' with updated_at := now2 } ∧
    (ensure_checkin db' c'.driver_id c'.group_id c'.date now2).2.checkins.length
      = db'.checkins.length := by
  unfold reset_checkin at h
  rcases hfind : db.checkins.find? (fun c => decide (c.id = cid)) with _ | c
  · rw [hfind] at h
    exact absurd h (by simp)
  · rw [hfind] at h
    have hc_mem : c ∈ db.checkins := List.mem_of_find?_eq_some hfind
    have hc_id : c.id = cid := by simpa using List.find?_some hfind
    simp only [Option.some.injEq, Prod.mk.injEq] at h
    obtain ⟨hc', hdb'⟩ := h
    subst hc'
    subst hdb'
    refine ⟨rfl, rfl, rfl, rfl, rfl, rfl, rfl, rfl, hc_id, ?_, ?_⟩
    · intro d hd hdid'
      simp only [List.mem_map] at hd
      obtain ⟨d0, _, hd0⟩ := hd
      by_cases hcase : d0.id = c.driver_id
      · rw [if_pos hcase] at hd0
        rw [← hd0]
      · rw [if_neg hcase] at hd0
        rw [← hd0] at hdid'
        exact absurd hdid' hcase
    · refine ensure_checkin_found _ _ now2
        (List.mem_map.mpr ⟨c, hc_mem, by rw [if_pos rfl]⟩) ?_
      intro y hy h1 h2
      simp only [List.mem_map] at hy
      obtain ⟨x0, hx0_mem, hx0⟩ := hy
      by_cases hcase : x0.id = c.id
      · rw [if_pos hcase] at hx0
        exact hx0.symm
      · rw [if_neg hcase] at hx0
        subst hx0
        have h1' : x0.driver_id = c.driver_id := h1
        have h2' : x0.date = c.date := h2
        have hkey : (x0.driver_id, x0.date) = (c.driver_id, c.date) := by
          rw [h1', h2']
        have hyc : x0 = c := List.inj_on_of_nodup_map hwf.2 hx0_mem hc_mem hkey
        exact absurd (by rw [hyc]) hcase

/-- Witness for C8: resetting a reviewed `pass` checkin yields a pristine
`pending` row and the follow-up `ensure_checkin` adds no row. -/
theorem reset_then_ensure_witness :
    (⟨4, 5, 2, 0, none, none, Status.pending, none, none, none, none, 0, 6⟩ : Checkin).status
      = Status.pending ∧
    (⟨4, 5, 2, 0, none, none, Status.pending, none, none, none, none, 0, 6⟩ : Checkin).media_count
      = 0 ∧
    (ensure_checkin
        ⟨[⟨4, 5, 2, 0, none, none, Status.pending, none, none, none, none, 0, 6⟩],
          [⟨5, true, 1, 1, none, none, none⟩], 10⟩
        (⟨4, 5, 2, 0, none, none, Status.pending, none, none, none, none, 0, 6⟩ : Checkin).driver_id
        (⟨4, 5, 2, 0, none, none, Status.pending, none, none, none, none, 0, 6⟩ : Checkin).group_id
        (⟨4, 5, 2, 0, none, none, Status.pending, none, none, none, none, 0, 6⟩ : Checkin).date
        9).2.checkins.length
      = (⟨[⟨4, 5, 2, 0, none, none, Status.pending, none, none, none, none, 0, 6⟩],
          [⟨5, true, 1, 1, none, none, none⟩], 10⟩ : DB).checkins.length := by
  obtain ⟨h1, h2, _, _, _, _, _, _, _, _, _, he2⟩ :=
    reset_then_ensure_spec
      ⟨[⟨4, 5, 2, 0, some 1, some 2, Status.pass, some "ok", some 9, some 2, some 77, 3, 2⟩],
        [⟨5, true, 1, 1, none, some 2, none⟩], 10⟩
      4 6 9 ⟨by decide, by decide⟩
      ⟨4, 5, 2, 0, none, none, Status.pending, none, none, none, none, 0, 6⟩
      ⟨[⟨4, 5, 2, 0, none, none, Status.pending, none, none, none, none, 0, 6⟩],
        [⟨5, true, 1, 1, none, none, none⟩], 10⟩
      (by decide)
  exact ⟨h1, h2, he2⟩

/-- Counterexample to claim C9 as stated: `reopen_checkin` **does** clear
the driver's `last_pass_at` — for a driver with `last_pass_at = some 3`,
reopening their reviewed `pass` checkin leaves the drivers table with
`last_pass_at = none`. -/
theorem reopen_clears_last_pass_counterexample :
    reopen_checkin
        ⟨[⟨4, 5, 2, 0, some 1, some 2, Status.pass, none, some 9, some 2, some 77, 2, 2⟩],
          [⟨5, true, 1, 1, none, some 3, none⟩], 10⟩ 5 2 0 7
      = some
        (⟨4, 5, 2, 0, some 1, some 2, Status.submitted, none, none, none, some 77, 2, 7⟩,
          ⟨[⟨4, 5, 2, 0, some 1, some 2, Status.submitted, none, none, none, some 77, 2, 7⟩],
            [⟨5, true, 1, 1, none, none, none⟩], 10⟩) := by decide

/-- Claim C9 (amended: reopen clears the driver's last-pass timestamp just
as reset does): `reopen_checkin` returns the checkin to `submitted`,
clears only the reason and the reviewer fields (reviewer id and review
time) besides `updated_at`, keeps the media count and the response,
notification and review-card fields unchanged — and also clears the
driver's `last_pass_at`. -/
theorem reopen_checkin_amended (db : DB) (did gid : Nat) (dt now : Int)
    (c' : Checkin) (db' : DB)
    (h : reopen_checkin db did gid dt now = some (c', db')) :
    ∃ c, c ∈ db.checkins ∧ c.driver_id = did ∧ c.group_id = gid ∧ c.date = dt ∧
      c' = { c with
             status := Status.submitted
             reason := none
             reviewer_user_id := none
             reviewed_at := none
             updated_at := now } ∧
      c'.media_count = c.media_count ∧ c'.responded_at = c.responded_at ∧
      c'.sent_at = c.sent_at ∧ c'.review_message_id = c.review_message_id ∧
      db'.checkins = db.checkins.map (fun x => if x.id = c.id then c' else x) ∧
      db'.drivers = db.drivers.map (fun d =>
        if d.id = c.driver_id then { d with last_pass_at := none } else d) := by
  unfold reopen_checkin at h
  rcases hfind : db.checkins.find? (fun c =>
      decide (c.driver_id = did ∧ c.group_id = gid ∧ c.date = dt)) with _ | c
  · rw [hfind] at h
    exact absurd h (by simp)
  · rw [hfind] at h
    have hc_mem : c ∈ db.checkins := List.mem_of_find?_eq_some hfind
    have hkeys := List.find?_some hfind
    simp only [decide_eq_true_eq] at hkeys
    simp only [Option.some.injEq, Prod.mk.injEq] at h
    obtain ⟨hc', hdb'⟩ := h
    subst hc'
    subst hdb'
    exact ⟨c, hc_mem, hkeys.1, hkeys.2.1, hkeys.2.2, rfl, rfl, rfl, rfl, rfl, rfl, rfl⟩

/-- Witness for the amended C9 at a concrete reviewed `pass` checkin. -/
theorem reopen_checkin_amended_witness :
    ∃ c, c ∈ (⟨[⟨4, 5, 2, 0, some 1, some 2, Status.pass, none, some 9, some 2, some 77, 2, 2⟩],
          [⟨5, true, 1, 1, none, some 3, none⟩], 10⟩ : DB).checkins ∧
      c.driver_id = 5 ∧ c.group_id = 2 ∧ c.date = 0 ∧
      (⟨4, 5, 2, 0, some 1, some 2, Status.submitted, none, none, none, some 77, 2, 7⟩ : Checkin)
        = { c with
            status := Status.submitted
            reason := none
            reviewer_user_id := none
            reviewed_at := none
            updated_at := 7 } ∧
      (⟨4, 5, 2, 0, some 1, some 2, Status.submitted, none, none, none, some 77, 2, 7⟩ : Checkin).media_count
        = c.media_count ∧
      (⟨4, 5, 2, 0, some 1, some 2, Status.submitted, none, none, none, some 77, 2, 7⟩ : Checkin).responded_at
        = c.responded_at ∧
      (⟨4, 5, 2, 0, some 1, some 2, Status.submitted, none, none, none, some 77, 2, 7⟩ : Checkin).sent_at
        = c.sent_at ∧
      (⟨4, 5, 2, 0, some 1, some 2, Status.submitted, none, none, none, some 77, 2, 7⟩ : Checkin).review_message_id
        = c.review_message_id ∧
      (⟨[⟨4, 5, 2, 0, some 1, some 2, Status.submitted, none, none, none, some 77, 2, 7⟩],
          [⟨5, true, 1, 1, none, none, none⟩], 10⟩ : DB).checkins
        = (⟨[⟨4, 5, 2, 0, some 1, some 2, Status.pass, none, some 9, some 2, some 77, 2, 2⟩],
            [⟨5, true, 1, 1, none, some 3, none⟩], 10⟩ : DB).checkins.map
            (fun x => if x.id = c.id then
              ⟨4, 5, 2, 0, some 1, some 2, Status.submitted, none, none, none, some 77, 2, 7⟩
            else x) ∧
      (⟨[⟨4, 5, 2, 0, some 1, some 2, Status.submitted, none, none, none, some 77, 2, 7⟩],
          [⟨5, true, 1, 1, none, none, none⟩], 10⟩ : DB).drivers
        = (⟨[⟨4, 5, 2, 0, some 1, some 2, Status.pass, none, some 9, some 2, some 77, 2, 2⟩],
            [⟨5, true, 1, 1, none, some 3, none⟩], 10⟩ : DB).drivers.map
            (fun d => if d.id = c.driver_id then { d with last_pass_at := none } else d) :=
  reopen_checkin_amended
    ⟨[⟨4, 5, 2, 0, some 1, some 2, Status.pass, none, some 9, some 2, some 77, 2, 2⟩],
      [⟨5, true, 1, 1, none, some 3, none⟩], 10⟩
    5 2 0 7
    ⟨4, 5, 2, 0, some 1, some 2, Status.submitted, none, none, none, some 77, 2, 7⟩
    ⟨[⟨4, 5, 2, 0, some 1, some 2, Status.submitted, none, none, none, some 77, 2, 7⟩],
      [⟨5, true, 1, 1, none, none, none⟩], 10⟩
    (by decide)

/-! ### Scheduler invariant -/

/-- Invariant of the follow-up book-keeping under the public API: every
checkin either has no index entry and no outstanding jobs, or an index
entry listing exactly its two slots and exactly those two jobs in the
store. -/
def SchedInv (s : Sched) : Prop :=
  ∀ cid, (s.index cid = none ∧ jobsFor s cid = []) ∨
    (∃ t1 t2 : Int, s.index cid = some [(cid, 1), (cid, 2)] ∧
      jobsFor s cid = [⟨(cid, 1), t1⟩, ⟨(cid, 2), t2⟩])

theorem jobsFor_cancel (s : Sched) (cid c : Nat) :
    jobsFor (cancel_followups s cid) c
      = (jobsFor s c).filter (fun j => decide (¬ j.key ∈ (s.index cid).getD [])) := by
  simp only [jobsFor, cancel_followups, List.filter_filter]
  exact List.filter_congr (fun a _ => by rw [Bool.and_comm])

theorem jobsFor_cancel_self (s : Sched) (cid : Nat) (h : SchedInv s) :
    jobsFor (cancel_followups s cid) cid = [] := by
  rcases h cid with ⟨hidx, hjobs⟩ | ⟨t1, t2, hidx, hjobs⟩
  · rw [jobsFor_cancel, hjobs, List.filter_nil]
  · rw [jobsFor_cancel, hjobs, hidx]
    simp

theorem jobsFor_cancel_other (s : Sched) (cid c : Nat) (h : SchedInv s) (hne : c ≠ cid) :
    jobsFor (cancel_followups s cid) c = jobsFor s c := by
  rw [jobsFor_cancel]
  apply List.filter_eq_self.mpr
  intro j hj
  have hjc : j.key.1 = c := by simpa using (List.mem_filter.mp hj).2
  rcases h cid with ⟨hidx, _⟩ | ⟨t1, t2, hidx, _⟩
  · rw [hidx]
    simp
  · rw [hidx]
    simp only [Option.getD_some, decide_eq_true_eq]
    intro hmem
    rcases (by simpa using hmem : j.key = (cid, 1) ∨ j.key = (cid, 2)) with h1 | h1 <;>
      exact hne (by rw [← hjc, h1])

theorem no_cid_jobs_after_cancel (s : Sched) (cid : Nat) (h : SchedInv s) :
    ∀ j ∈ (cancel_followups s cid).jobs, j.key.1 ≠ cid := by
  intro j hj hcontra
  have hmem : j ∈ jobsFor (cancel_followups s cid) cid :=
    List.mem_filter.mpr ⟨hj, by simpa⟩
  rw [jobsFor_cancel_self s cid h] at hmem
  cases hmem

theorem schedule_jobs_eq (s : Sched) (cid : Nat) (now : Int) (h : SchedInv s) :
    (schedule_followups s cid now).jobs
      = (cancel_followups s cid).jobs ++ [⟨(cid, 1), now + 15⟩, ⟨(cid, 2), now + 50⟩] := by
  have hnone := no_cid_jobs_after_cancel s cid h
  have e1 : (cancel_followups s cid).jobs.filter
      (fun j => decide (¬ j.key = (cid, 1))) = (cancel_followups s cid).jobs := by
    apply List.filter_eq_self.mpr
    intro j hj
    simp only [decide_eq_true_eq]
    intro hk
    exact hnone j hj (by rw [hk])
  have e2 : (cancel_followups s cid).jobs.filter
      (fun j => decide (¬ j.key = (cid, 2))) = (cancel_followups s cid).jobs := by
    apply List.filter_eq_self.mpr
    intro j hj
    simp only [decide_eq_true_eq]
    intro hk
    exact hnone j hj (by rw [hk])
  simp only [schedule_followups, addJob]
  rw [List.filter_append, e1, e2]
  simp

theorem jobsFor_schedule_self (s : Sched) (cid : Nat) (now : Int) (h : SchedInv s) :
    jobsFor (schedule_followups s cid now) cid
      = [⟨(cid, 1), now + 15⟩, ⟨(cid, 2), now + 50⟩] := by
  rw [jobsFor, schedule_jobs_eq s cid now h, List.filter_append]
  have h1 : List.filter (fun j => decide (j.key.1 = cid)) (cancel_followups s cid).jobs
      = [] := jobsFor_cancel_self s cid h
  rw [h1]
  simp

theorem jobsFor_schedule_other (s : Sched) (cid c : Nat) (now : Int) (h : SchedInv s)
    (hne : c ≠ cid) :
    jobsFor (schedule_followups s cid now) c = jobsFor s c := by
  rw [jobsFor, schedule_jobs_eq s cid now h, List.filter_append]
  have h1 : List.filter (fun j => decide (j.key.1 = c)) (cancel_followups s cid).jobs
      = jobsFor (cancel_followups s cid) c := rfl
  rw [h1, jobsFor_cancel_other s cid c h hne]
  have h2 : List.filter (fun j => decide (j.key.1 = c))
      [(⟨(cid, 1), now + 15⟩ : FJob), ⟨(cid, 2), now + 50⟩] = [] := by
    simp [Ne.symm hne]
  rw [h2, List.append_nil]

theorem index_schedule_self (s : Sched) (cid : Nat) (now : Int) :
    (schedule_followups s cid now).index cid = some [(cid, 1), (cid, 2)] := by
  simp [schedule_followups]

theorem index_schedule_other (s : Sched) (cid c : Nat) (now : Int) (hne : c ≠ cid) :
    (schedule_followups s cid now).index c = s.index c := by
  simp [schedule_followups, addJob, cancel_followups, hne]

theorem schedInv_init : SchedInv schedInit :=
  fun _ => Or.inl ⟨rfl, rfl⟩

theorem schedInv_cancel (s : Sched) (cid : Nat) (h : SchedInv s) :
    SchedInv (cancel_followups s cid) := by
  intro c
  by_cases hc : c = cid
  · subst hc
    exact Or.inl ⟨by simp [cancel_followups], jobsFor_cancel_self s c h⟩
  · rcases h c with ⟨h1, h2⟩ | ⟨t1, t2, h1, h2⟩
    · exact Or.inl ⟨by simp [cancel_followups, hc, h1],
        by rw [jobsFor_cancel_other s cid c h hc]; exact h2⟩
    · exact Or.inr ⟨t1, t2, by simp [cancel_followups, hc, h1],
        by rw [jobsFor_cancel_other s cid c h hc]; exact h2⟩

theorem schedInv_schedule (s : Sched) (cid : Nat) (now : Int) (h : SchedInv s) :
    SchedInv (schedule_followups s cid now) := by
  intro c
  by_cases hc : c = cid
  · subst hc
    exact Or.inr ⟨now + 15, now + 50, index_schedule_self s c now,
      jobsFor_schedule_self s c now h⟩
  · rcases h c with ⟨h1, h2⟩ | ⟨t1, t2, h1, h2⟩
    · exact Or.inl ⟨by rw [index_schedule_other s cid c now hc]; exact h1,
        by rw [jobsFor_schedule_other s cid c now h hc]; exact h2⟩
    · exact Or.inr ⟨t1, t2, by rw [index_schedule_other s cid c now hc]; exact h1,
        by rw [jobsFor_schedule_other s cid c now h hc]; exact h2⟩

theorem schedInv_runSOps (ops : List SOp) :
    ∀ s : Sched, SchedInv s → SchedInv (runSOps s ops) := by
  induction ops with
  | nil => exact fun s h => h
  | cons op rest ih =>
    intro s h
    rcases op with ⟨cid, now⟩ | ⟨cid⟩
    · exact ih _ (schedInv_schedule s cid now h)
    · exact ih _ (schedInv_cancel s cid h)

theorem cancel_noop (s : Sched) (cid : Nat) (h : SchedInv s)
    (h0 : jobsFor s cid = []) : cancel_followups s cid = s := by
  have hidx : s.index cid = none := by
    rcases h cid with ⟨h1, _⟩ | ⟨t1, t2, h1, h2⟩
    · exact h1
    · rw [h0] at h2
      exact absurd h2 (by simp)
  have hjobs : (cancel_followups s cid).jobs = s.jobs := by
    simp only [cancel_followups, hidx]
    simp
  have hindex : (cancel_followups s cid).index = s.index := by
    funext c
    by_cases hc : c = cid
    · subst hc
      simp [cancel_followups, hidx]
    · simp [cancel_followups, hc]
  calc cancel_followups s cid
      = ⟨(cancel_followups s cid).jobs, (cancel_followups s cid).index⟩ := rfl
    _ = ⟨s.jobs, s.index⟩ := by rw [hjobs, hindex]
    _ = s := rfl

/-- Claim C1: over any sequence of `schedule_followups` /
`cancel_followups` calls a checkin has at most two outstanding follow-up
jobs; `schedule_followups` cancels any existing jobs before arming
exactly two jobs at 15 and 50 minutes from now (so scheduling twice
leaves exactly two jobs, never four); `cancel_followups` removes all
outstanding jobs for the checkin and is a no-op when none exist. -/
theorem followup_scheduler_spec (ops : List SOp) (cid : Nat) (t t2 : Int) :
    outstanding (runSOps schedInit ops) cid ≤ 2 ∧
    jobsFor (schedule_followups (runSOps schedInit ops) cid t) cid
      = [⟨(cid, 1), t + 15⟩, ⟨(cid, 2), t + 50⟩] ∧
    outstanding
        (schedule_followups (schedule_followups (runSOps schedInit ops) cid t) cid t2)
        cid
      = 2 ∧
    outstanding (cancel_followups (runSOps schedInit ops) cid) cid = 0 ∧
    (outstanding (runSOps schedInit ops) cid = 0 →
      cancel_followups (runSOps schedInit ops) cid = runSOps schedInit ops) := by
  have hinv : SchedInv (runSOps schedInit ops) :=
    schedInv_runSOps ops schedInit schedInv_init
  refine ⟨?_, jobsFor_schedule_self _ cid t hinv, ?_, ?_, ?_⟩
  · rcases hinv cid with ⟨_, h2⟩ | ⟨t1', t2', _, h2⟩ <;>
      simp [outstanding, h2]
  · simp only [outstanding,
      jobsFor_schedule_self _ cid t2 (schedInv_schedule _ cid t hinv)]
    rfl
  · simp only [outstanding, jobsFor_cancel_self _ cid hinv]
    rfl
  · intro h0
    exact cancel_noop _ cid hinv (List.length_eq_zero.mp h0)

/-- Witness for C1: on the fresh scheduler state no follow-up jobs exist
and `cancel_followups` is a no-op. -/
theorem followup_scheduler_witness :
    outstanding (runSOps schedInit []) 0 = 0 ∧
    cancel_followups (runSOps schedInit []) 0 = runSOps schedInit [] :=
  ⟨rfl, (followup_scheduler_spec [] 0 0 0).2.2.2.2 rfl⟩

/-- Claim C7: after `schedule_followups` for a checkin that stays
`submitted` with no recorded response, firing slot 1 at t+15 re-sends the
reminder and leaves only slot 2 outstanding; firing slot 2 at t+50 also
runs, and afterwards no follow-up jobs remain outstanding for that
checkin and its index entry is gone. -/
theorem followup_no_response_scenario (c : Checkin) (t : Int)
    (hst : c.status = Status.submitted) (hresp : c.responded_at = none) :
    (run_followup_job (schedule_followups schedInit c.id t) c.id 1 (some c)
        true true false false).2 = true ∧
    jobsFor (run_followup_job (schedule_followups schedInit c.id t) c.id 1 (some c)
        true true false false).1 c.id
      = [⟨(c.id, 2), t + 50⟩] ∧
    (run_followup_job
        (run_followup_job (schedule_followups schedInit c.id t) c.id 1 (some c)
          true true false false).1
        c.id 2 (some c) true true false false).2 = true ∧
    outstanding
        (run_followup_job
          (run_followup_job (schedule_followups schedInit c.id t) c.id 1 (some c)
            true true false false).1
          c.id 2 (some c) true true false false).1 c.id = 0 ∧
    (run_followup_job
        (run_followup_job (schedule_followups schedInit c.id t) c.id 1 (some c)
          true true false false).1
        c.id 2 (some c) true true false false).1.index c.id = none := by
  refine ⟨?_, ?_, ?_, ?_, ?_⟩ <;>
    simp [run_followup_job, dropSelfFromIndex, schedule_followups, addJob,
      cancel_followups, jobsFor, outstanding, schedInit, hst, hresp, List.erase]

/-- Witness for C7: the scenario run through at a concrete checkin. -/
theorem followup_no_response_witness :
    (run_followup_job (schedule_followups schedInit 9 100) 9 1
        (some ⟨9, 1, 1, 0, none, none, Status.submitted, none, none, none, none, 0, 0⟩)
        true true false false).2 = true ∧
    outstanding
        (run_followup_job
          (run_followup_job (schedule_followups schedInit 9 100) 9 1
            (some ⟨9, 1, 1, 0, none, none, Status.submitted, none, none, none, none, 0, 0⟩)
            true true false false).1
          9 2 (some ⟨9, 1, 1, 0, none, none, Status.submitted, none, none, none, none, 0, 0⟩)
          true true false false).1 9 = 0 := by
  have h := followup_no_response_scenario
    ⟨9, 1, 1, 0, none, none, Status.submitted, none, none, none, none, 0, 0⟩ 100 rfl rfl
  exact ⟨h.1, h.2.2.2.1⟩

/-! ### Compliance alert cooldowns -/

/-- The stored driver-alert timestamp before a tick (none when no tracking
row exists yet). -/
def lastDriverAlertOf : Option TrackState → Option Int
  | some p => p.last_driver_alert_at
  | none => none

/-- The stored dispatch-alert timestamp before a tick. -/
def lastDispatchAlertOf : Option TrackState → Option Int
  | some p => p.last_dispatch_alert_at
  | none => none

theorem upsert_state_driver_alert (prev : Option TrackState) (st : CStatus) (now : Int) :
    (upsert_state prev st now).last_driver_alert_at = lastDriverAlertOf prev := by
  cases prev <;> rfl

theorem upsert_state_dispatch_alert (prev : Option TrackState) (st : CStatus) (now : Int) :
    (upsert_state prev st now).last_dispatch_alert_at = lastDispatchAlertOf prev := by
  cases prev <;> rfl

theorem upsert_state_zero_of_ne (prev : Option TrackState) (st : CStatus) (now : Int)
    (hst : st ≠ CStatus.non_compliant) :
    (upsert_state prev st now).consecutive_reports = 0 := by
  cases prev <;> simp [upsert_state, hst]

theorem should_alert_driver_iff (s : TrackState) (now : Int) :
    should_alert_driver s now = true ↔
      2 ≤ s.consecutive_reports ∧
        ∀ a, s.last_driver_alert_at = some a → REPORT_WINDOW ≤ now - a := by
  unfold should_alert_driver
  rcases hla : s.last_driver_alert_at with _ | a
  · by_cases h1 : s.consecutive_reports < 2 <;> simp [h1] <;> omega
  · by_cases h1 : s.consecutive_reports < 2
    · simp [h1]
    · by_cases h2 : now - a < REPORT_WINDOW <;> simp [h1, h2] <;> omega

theorem should_alert_dispatch_iff (s : TrackState) (now : Int) :
    should_alert_dispatch s now = true ↔
      3 ≤ s.consecutive_reports ∧
        ∀ a, s.last_dispatch_alert_at = some a → REPORT_WINDOW ≤ now - a := by
  unfold should_alert_dispatch
  rcases hla : s.last_dispatch_alert_at with _ | a
  · by_cases h1 : s.consecutive_reports < 3 <;> simp [h1] <;> omega
  · by_cases h1 : s.consecutive_reports < 3
    · simp [h1]
    · by_cases h2 : now - a < REPORT_WINDOW <;> simp [h1, h2] <;> omega

theorem compliance_tick_fired_driver_iff (prev : Option TrackState) (st : CStatus)
    (hasChat : Bool) (now : Int) :
    (compliance_tick prev st hasChat now).firedDriver = true ↔
      (hasChat = true ∧ 2 ≤ (upsert_state prev st now).consecutive_reports ∧
        ∀ a, lastDriverAlertOf prev = some a → REPORT_WINDOW ≤ now - a) := by
  by_cases hst : st = CStatus.non_compliant
  · simp only [compliance_tick, if_pos hst]
    simp only [Bool.and_eq_true, should_alert_driver_iff,
      upsert_state_driver_alert, and_assoc]
  · have hz := upsert_state_zero_of_ne prev st now hst
    simp only [compliance_tick, if_neg hst]
    simp [hz]

theorem compliance_tick_fired_dispatch_iff (prev : Option TrackState) (st : CStatus)
    (hasChat : Bool) (now : Int) :
    (compliance_tick prev st hasChat now).firedDispatch = true ↔
      (3 ≤ (upsert_state prev st now).consecutive_reports ∧
        ∀ a, lastDispatchAlertOf prev = some a → REPORT_WINDOW ≤ now - a) := by
  by_cases hst : st = CStatus.non_compliant
  · simp only [compliance_tick, if_pos hst]
    simp only [should_alert_dispatch_iff, upsert_state_dispatch_alert]
  · have hz := upsert_state_zero_of_ne prev st now hst
    simp only [compliance_tick, if_neg hst]
    simp [hz]

theorem compliance_tick_driver_stamp (prev : Option TrackState) (st : CStatus)
    (hasChat : Bool) (now : Int) :
    ((compliance_tick prev st hasChat now).firedDriver = true →
      (compliance_tick prev st hasChat now).state.last_driver_alert_at = some now) ∧
    ((compliance_tick prev st hasChat now).firedDriver = false →
      (compliance_tick prev st hasChat now).state.last_driver_alert_at
        = lastDriverAlertOf prev) := by
  by_cases hst : st = CStatus.non_compliant
  · simp only [compliance_tick, if_pos hst]
    cases hfd : hasChat && should_alert_driver (upsert_state prev st now) now <;>
      cases hfe : should_alert_dispatch (upsert_state prev st now) now <;>
        simp [hfd, hfe, upsert_state_driver_alert]
  · simp only [compliance_tick, if_neg hst]
    cases hz : (upsert_state prev st now).consecutive_reports <;>
      simp [hz, reset_state, upsert_state_driver_alert]

theorem compliance_tick_dispatch_stamp (prev : Option TrackState) (st : CStatus)
    (hasChat : Bool) (now : Int) :
    ((compliance_tick prev st hasChat now).firedDispatch = true →
      (compliance_tick prev st hasChat now).state.last_dispatch_alert_at = some now) ∧
    ((compliance_tick prev st hasChat now).firedDispatch = false →
      (compliance_tick prev st hasChat now).state.last_dispatch_alert_at
        = lastDispatchAlertOf prev) := by
  by_cases hst : st = CStatus.non_compliant
  · simp only [compliance_tick, if_pos hst]
    cases hfd : hasChat && should_alert_driver (upsert_state prev st now) now <;>
      cases hfe : should_alert_dispatch (upsert_state prev st now) now <;>
        simp [hfd, hfe, upsert_state_dispatch_alert]
  · simp only [compliance_tick, if_neg hst]
    cases hz : (upsert_state prev st now).consecutive_reports <;>
      simp [hz, reset_state, upsert_state_dispatch_alert]

theorem run_ticks_cons (hasChat : Bool) (prev : Option TrackState) (st : CStatus)
    (t : Int) (rest : List (CStatus × Int)) :
    run_ticks hasChat prev ((st, t) :: rest)
      = ((compliance_tick prev st hasChat t).firedDriver,
          (compliance_tick prev st hasChat t).firedDispatch, t)
        :: run_ticks hasChat (some (compliance_tick prev st hasChat t).state) rest := rfl

theorem run_ticks_driver_gap_from (hasChat : Bool) (ticks : List (CStatus × Int)) :
    ∀ (s : TrackState) (a : Int),
      s.last_driver_alert_at = some a →
      List.Pairwise (fun u v => u.2 ≤ v.2) ticks →
      (∀ x ∈ ticks, a ≤ x.2) →
      ∀ r ∈ run_ticks hasChat (some s) ticks, r.1 = true →
        REPORT_WINDOW ≤ r.2.2 - a := by
  induction ticks with
  | nil =>
    intro s a _ _ _ r hr
    cases hr
  | cons ht rest ih =>
    rcases ht with ⟨st, t⟩
    intro s a ha hpw hge r hr hfired
    rw [run_ticks_cons] at hr
    obtain ⟨hpw1, hpw2⟩ := List.pairwise_cons.mp hpw
    rcases List.mem_cons.mp hr with rfl | hr'
    · have hchar := (compliance_tick_fired_driver_iff (some s) st hasChat t).mp hfired
      have hla : lastDriverAlertOf (some s) = some a := ha
      exact hchar.2.2 a hla
    · by_cases hfd : (compliance_tick (some s) st hasChat t).firedDriver = true
      · have hstamp := (compliance_tick_driver_stamp (some s) st hasChat t).1 hfd
        have hta : a ≤ t := hge (st, t) (List.mem_cons_self _ _)
        have hrest := ih (compliance_tick (some s) st hasChat t).state t hstamp hpw2
          (fun x hx => hpw1 x hx) r hr' hfired
        exact le_trans hrest (sub_le_sub_left hta _)
      · have hfd' : (compliance_tick (some s) st hasChat t).firedDriver = false := by
          cases h' : (compliance_tick (some s) st hasChat t).firedDriver
          · rfl
          · exact absurd h' hfd
        have hsame : (compliance_tick (some s) st hasChat t).state.last_driver_alert_at
            = some a := by
          rw [(compliance_tick_driver_stamp (some s) st hasChat t).2 hfd']
          exact ha
        exact ih _ a hsame hpw2 (fun x hx => hge x (List.mem_cons_of_mem _ hx)) r hr' hfired

theorem run_ticks_dispatch_gap_from (hasChat : Bool) (ticks : List (CStatus × Int)) :
    ∀ (s : TrackState) (a : Int),
      s.last_dispatch_alert_at = some a →
      List.Pairwise (fun u v => u.2 ≤ v.2) ticks →
      (∀ x ∈ ticks, a ≤ x.2) →
      ∀ r ∈ run_ticks hasChat (some s) ticks, r.2.1 = true →
        REPORT_WINDOW ≤ r.2.2 - a := by
  induction ticks with
  | nil =>
    intro s a _ _ _ r hr
    cases hr
  | cons ht rest ih =>
    rcases ht with ⟨st, t⟩
    intro s a ha hpw hge r hr hfired
    rw [run_ticks_cons] at hr
    obtain ⟨hpw1, hpw2⟩ := List.pairwise_cons.mp hpw
    rcases List.mem_cons.mp hr with rfl | hr'
    · have hchar := (compliance_tick_fired_dispatch_iff (some s) st hasChat t).mp hfired
      have hla : lastDispatchAlertOf (some s) = some a := ha
      exact hchar.2 a hla
    · by_cases hfd : (compliance_tick (some s) st hasChat t).firedDispatch = true
      · have hstamp := (compliance_tick_dispatch_stamp (some s) st hasChat t).1 hfd
        have hta : a ≤ t := hge (st, t) (List.mem_cons_self _ _)
        have hrest := ih (compliance_tick (some s) st hasChat t).state t hstamp hpw2
          (fun x hx => hpw1 x hx) r hr' hfired
        exact le_trans hrest (sub_le_sub_left hta _)
      · have hfd' : (compliance_tick (some s) st hasChat t).firedDispatch = false := by
          cases h' : (compliance_tick (some s) st hasChat t).firedDispatch
          · rfl
          · exact absurd h' hfd
        have hsame : (compliance_tick (some s) st hasChat t).state.last_dispatch_alert_at
            = some a := by
          rw [(compliance_tick_dispatch_stamp (some s) st hasChat t).2 hfd']
          exact ha
        exact ih _ a hsame hpw2 (fun x hx => hge x (List.mem_cons_of_mem _ hx)) r hr' hfired

theorem run_ticks_driver_once (hasChat : Bool) (ticks : List (CStatus × Int)) :
    ∀ (prev : Option TrackState) (pre mid post : List (Bool × Bool × Int))
      (x y : Bool × Bool × Int),
      List.Pairwise (fun u v => u.2 ≤ v.2) ticks →
      run_ticks hasChat prev ticks = pre ++ x :: mid ++ y :: post →
      x.1 = true → y.1 = true →
      REPORT_WINDOW ≤ y.2.2 - x.2.2 := by
  induction ticks with
  | nil =>
    intro prev pre mid post x y _ heq _ _
    exact absurd heq (by cases pre <;> simp [run_ticks])
  | cons ht rest ih =>
    rcases ht with ⟨st, t⟩
    intro prev pre mid post x y hpw heq hx hy
    rw [run_ticks_cons] at heq
    obtain ⟨hpw1, hpw2⟩ := List.pairwise_cons.mp hpw
    cases pre with
    | nil =>
      simp only [List.nil_append] at heq
      injection heq with h1 h2
      subst h1
      have hy_mem : y ∈ run_ticks hasChat
          (some (compliance_tick prev st hasChat t).state) rest := by
        rw [h2]
        exact List.mem_append_right _ (List.mem_cons_self _ _)
      have hstamp := (compliance_tick_driver_stamp prev st hasChat t).1 hx
      exact run_ticks_driver_gap_from hasChat rest
        (compliance_tick prev st hasChat t).state t hstamp hpw2
        (fun u hu => hpw1 u hu) y hy_mem hy
    | cons p pre' =>
      injection heq with h1 h2
      exact ih (some (compliance_tick prev st hasChat t).state) pre' mid post x y
        hpw2 h2 hx hy

theorem run_ticks_dispatch_once (hasChat : Bool) (ticks : List (CStatus × Int)) :
    ∀ (prev : Option TrackState) (pre mid post : List (Bool × Bool × Int))
      (x y : Bool × Bool × Int),
      List.Pairwise (fun u v => u.2 ≤ v.2) ticks →
      run_ticks hasChat prev ticks = pre ++ x :: mid ++ y :: post →
      x.2.1 = true → y.2.1 = true →
      REPORT_WINDOW ≤ y.2.2 - x.2.2 := by
  induction ticks with
  | nil =>
    intro prev pre mid post x y _ heq _ _
    exact absurd heq (by cases pre <;> simp [run_ticks])
  | cons ht rest ih =>
    rcases ht with ⟨st, t⟩
    intro prev pre mid post x y hpw heq hx hy
    rw [run_ticks_cons] at heq
    obtain ⟨hpw1, hpw2⟩ := List.pairwise_cons.mp hpw
    cases pre with
    | nil =>
      simp only [List.nil_append] at heq
      injection heq with h1 h2
      subst h1
      have hy_mem : y ∈ run_ticks hasChat
          (some (compliance_tick prev st hasChat t).state) rest := by
        rw [h2]
        exact List.mem_append_right _ (List.mem_cons_self _ _)
      have hstamp := (compliance_tick_dispatch_stamp prev st hasChat t).1 hx
      exact run_ticks_dispatch_gap_from hasChat rest
        (compliance_tick prev st hasChat t).state t hstamp hpw2
        (fun u hu => hpw1 u hu) y hy_mem hy
    | cons p pre' =>
      injection heq with h1 h2
      exact ih (some (compliance_tick prev st hasChat t).state) pre' mid post x y
        hpw2 h2 hx hy

/-- Counterexample to claim C3 as stated: a driver with **no linked
notify chat** reaches `consecutive_reports = 2` with no driver alert ever
sent (so the claimed firing condition holds), yet the nudge does not fire
— `send_hourly_report` guards the nudge with `entry.driver.notify_chat_id`. -/
theorem driver_nudge_needs_chat_counterexample :
    2 ≤ (upsert_state (some ⟨1, some 0, none, none, some CStatus.non_compliant⟩)
        CStatus.non_compliant 2000).consecutive_reports ∧
    (upsert_state (some ⟨1, some 0, none, none, some CStatus.non_compliant⟩)
        CStatus.non_compliant 2000).last_driver_alert_at = none ∧
    (compliance_tick (some ⟨1, some 0, none, none, some CStatus.non_compliant⟩)
        CStatus.non_compliant false 2000).firedDriver = false := by decide

/-- Claim C3 (amended: the driver nudge additionally requires the driver
to have a linked notify chat): on each tick the driver nudge fires exactly
when the driver has a linked chat, the updated `consecutive_reports` is at
least 2 and no driver alert was sent within the preceding 24 hours; the
dispatch escalation fires exactly when the updated counter is at least 3
and no escalation was sent within 24 hours; a firing stamps its
"last alert" timestamp in the same pass; and along any tick sequence with
non-decreasing times, any two firings of the same alert kind are at least
24 hours apart, so each kind fires at most once in any 24-hour window. -/
theorem compliance_alerts_amended :
    (∀ (prev : Option TrackState) (st : CStatus) (hasChat : Bool) (now : Int),
      ((compliance_tick prev st hasChat now).firedDriver = true ↔
        (hasChat = true ∧ 2 ≤ (upsert_state prev st now).consecutive_reports ∧
          ∀ a, lastDriverAlertOf prev = some a → REPORT_WINDOW ≤ now - a)) ∧
      ((compliance_tick prev st hasChat now).firedDispatch = true ↔
        (3 ≤ (upsert_state prev st now).consecutive_reports ∧
          ∀ a, lastDispatchAlertOf prev = some a → REPORT_WINDOW ≤ now - a)) ∧
      ((compliance_tick prev st hasChat now).firedDriver = true →
        (compliance_tick prev st hasChat now).state.last_driver_alert_at = some now) ∧
      ((compliance_tick prev st hasChat now).firedDispatch = true →
        (compliance_tick prev st hasChat now).state.last_dispatch_alert_at = some now)) ∧
    (∀ (hasChat : Bool) (ticks : List (CStatus × Int)) (prev : Option TrackState)
      (pre mid post : List (Bool × Bool × Int)) (x y : Bool × Bool × Int),
      List.Pairwise (fun u v => u.2 ≤ v.2) ticks →
      run_ticks hasChat prev ticks = pre ++ x :: mid ++ y :: post →
      x.1 = true → y.1 = true →
      REPORT_WINDOW ≤ y.2.2 - x.2.2) ∧
    (∀ (hasChat : Bool) (ticks : List (CStatus × Int)) (prev : Option TrackState)
      (pre mid post : List (Bool × Bool × Int)) (x y : Bool × Bool × Int),
      List.Pairwise (fun u v => u.2 ≤ v.2) ticks →
      run_ticks hasChat prev ticks = pre ++ x :: mid ++ y :: post →
      x.2.1 = true → y.2.1 = true →
      REPORT_WINDOW ≤ y.2.2 - x.2.2) :=
  ⟨fun prev st hasChat now =>
    ⟨compliance_tick_fired_driver_iff prev st hasChat now,
      compliance_tick_fired_dispatch_iff prev st hasChat now,
      (compliance_tick_driver_stamp prev st hasChat now).1,
      (compliance_tick_dispatch_stamp prev st hasChat now).1⟩,
    fun hasChat ticks => run_ticks_driver_once hasChat ticks,
    fun hasChat ticks => run_ticks_dispatch_once hasChat ticks⟩

/-- Witness for the amended C3: over the tick trace at times 0, 1 and
2000 a fresh driver with a linked chat fires the nudge at times 1 and
2000, which are more than 24 hours apart. -/
theorem compliance_alerts_witness : REPORT_WINDOW ≤ (2000 : Int) - 1 :=
  compliance_alerts_amended.2.1 true
    [(CStatus.non_compliant, 0), (CStatus.non_compliant, 1), (CStatus.non_compliant, 2000)]
    none [(false, false, 0)] [] [] (true, false, 1) (true, true, 2000)
    (by decide) (by decide) rfl rfl

end PtiBot
